import Mathlib

/-!
Shallow embedding of the email-sync pipeline of the Email-assistant
repository (`src/app/dashboard/page.tsx`, lines 242-628: the enhanced
`app/api/gmail/sync` route), together with the task-update validation
path (`src/lib/env.ts`, `taskUpdateSchema` and the PATCH handler in
`src/app/api/tasks/[id]/route.js`).

Modelling conventions:
* JavaScript timestamps (`Date`) are integers (milliseconds), `Int`.
* The `progress` field is a JavaScript number computed by exact
  arithmetic on small values; it is modelled as `ℚ`.
* Counter fields are only ever assigned from lengths and increments of
  natural numbers in the source, so they are modelled as `ℕ`.
* The status store (Upstash Redis via `cache.get`/`cache.set`) is an
  `Option SyncStatus` value: `none` models an absent/expired key.
* External collaborators (mail source, LLM extractor, Prisma
  `createMany`, date parsing) are parameters of the run environment;
  fallible ones return `Except String _` where the source awaits a
  promise that can reject.
-/

namespace EmailAssistant

/-- The `SyncStatus` interface of `page.tsx` (lines 281-291). -/
structure SyncStatus where
  isProcessing : Bool
  progress : ℚ
  currentStep : String
  totalEmails : Nat
  processedEmails : Nat
  tasksCreated : Nat
  emailsFailed : Nat
  lastSync : Option Int
  error : Option String
  deriving Repr, DecidableEq

/-- The zeroed default used when the cache has no entry
(`updateSyncStatus`, lines 298-308). -/
def defaultSyncStatus : SyncStatus :=
  { isProcessing := false
    progress := 0
    currentStep := ""
    totalEmails := 0
    processedEmails := 0
    tasksCreated := 0
    emailsFailed := 0
    lastSync := none
    error := none }

/-- A `Partial<SyncStatus>` update: `none` means the field is absent
from the update object.  The `error` field of the status is itself
nullable, hence `Option (Option String)` here. -/
structure SyncStatusUpdate where
  isProcessing : Option Bool := none
  progress : Option ℚ := none
  currentStep : Option String := none
  totalEmails : Option Nat := none
  processedEmails : Option Nat := none
  tasksCreated : Option Nat := none
  emailsFailed : Option Nat := none
  error : Option (Option String) := none
  deriving Repr

/-- `updateSyncStatus` (lines 294-321): overlay the provided fields on
the current status; `lastSync` is overwritten with the current time
exactly when the update object carries `isProcessing: false`, else it
keeps the stored value. -/
def updateSyncStatus (cur : SyncStatus) (u : SyncStatusUpdate) (now : Int) : SyncStatus :=
  { isProcessing := u.isProcessing.getD cur.isProcessing
    progress := u.progress.getD cur.progress
    currentStep := u.currentStep.getD cur.currentStep
    totalEmails := u.totalEmails.getD cur.totalEmails
    processedEmails := u.processedEmails.getD cur.processedEmails
    tasksCreated := u.tasksCreated.getD cur.tasksCreated
    emailsFailed := u.emailsFailed.getD cur.emailsFailed
    lastSync := if u.isProcessing = some false then some now else cur.lastSync
    error := u.error.getD cur.error }

/-- The update written synchronously by `POST` on acceptance
(lines 379-388). -/
def initialUpdate : SyncStatusUpdate :=
  { isProcessing := some true
    progress := some 0
    currentStep := some "Connecting to Gmail..."
    totalEmails := some 0
    processedEmails := some 0
    tasksCreated := some 0
    emailsFailed := some 0
    error := some none }

/-- Status just after a trigger call is accepted: the stored status (or
the zeroed default) merged with `initialUpdate`. -/
def acceptedStatus (store : Option SyncStatus) (now : Int) : SyncStatus :=
  updateSyncStatus (store.getD defaultSyncStatus) initialUpdate now

/-- Admission control of `POST` (lines 363-403): read the stored status;
if it reports `isProcessing`, answer 409 and leave the store untouched,
otherwise write the initial processing status and answer 200.  The
result is the HTTP status code paired with the store contents after the
call. -/
def startSyncPOST (store : Option SyncStatus) (now : Int) : Nat × Option SyncStatus :=
  if (match store with | some s => s.isProcessing | none => false) then
    (409, store)
  else
    (200, some (acceptedStatus store now))

/-- A raw message from the mail source (`GmailMessage`). -/
structure Email where
  id : String
  content : String
  deriving Repr, DecidableEq

/-- One task candidate reported by the extractor
(`analysis.tasks` elements). -/
structure ExtractedTask where
  title : String
  priority : Int
  deadline : Option String
  task_type : String
  company : Option String
  role : Option String
  details : String
  links : List String
  deriving Repr, DecidableEq

/-- The extractor's result object (`EmailAnalysis`). -/
structure EmailAnalysis where
  is_actionable : Bool
  tasks : List ExtractedTask
  deriving Repr, DecidableEq

/-- A record buffered for `prisma.task.createMany`
(`TaskCreateData`, lines 256-267); `deadline` is a parsed timestamp. -/
structure TaskCreateData where
  title : String
  priority : Int
  deadline : Option Int
  taskType : String
  company : Option String
  role : Option String
  details : String
  links : List String
  status : String
  userId : String
  deriving Repr, DecidableEq

/-- An existing `Task` row as seen by the deduplication query
(only the columns the query constrains). -/
structure TaskRow where
  userId : String
  title : String
  createdAt : Int
  deriving Repr, DecidableEq

/-- `pat` occurs at the head of `text`. -/
def leadEq : List Char → List Char → Bool
  | [], _ => true
  | _ :: _, [] => false
  | a :: as, b :: bs => a = b && leadEq as bs

/-- `pat` occurs somewhere inside `text` (Prisma `contains`). -/
def hasSegment : List Char → List Char → Bool
  | [], pat => pat.isEmpty
  | text@(_ :: rest), pat => leadEq pat text || hasSegment rest pat

/-- The dedup fingerprint: `email.id?.substring(0, 50) || 'Untitled'`
(line 483); an absent/empty id is falsy in JavaScript. -/
def fingerprintOf (id : String) : List Char :=
  if id.isEmpty then "Untitled".toList else id.toList.take 50

/-- Milliseconds in the trailing-7-day dedup window (line 486). -/
def sevenDaysMs : Int := 7 * 24 * 60 * 60 * 1000

/-- The run environment: identity, collaborator behaviours and clock. -/
structure RunEnv where
  userId : String
  fetchResult : Except String (List Email)
  existingTasks : List TaskRow
  extract : String → Except String EmailAnalysis
  parseDate : String → Option Int
  now : Int
  dbInsert : List TaskCreateData → Except String Nat

/-- The `prisma.task.findFirst` dedup lookup (lines 478-489): some task
of this user whose title contains the fingerprint and whose `createdAt`
is within the trailing 7 days. -/
def dedupFound (env : RunEnv) (email : Email) : Bool :=
  env.existingTasks.any fun t =>
    t.userId = env.userId && hasSegment t.title.toList (fingerprintOf email.id)
      && env.now - sevenDaysMs ≤ t.createdAt

/-- Deadline validation (lines 507-522): a falsy deadline stays null; a
present one is parsed, and kept only when valid and not before the
current moment. -/
def validatedDeadline (parseDate : String → Option Int) (now : Int) :
    Option String → Option Int
  | none => none
  | some s =>
    if s.isEmpty then none
    else
      match parseDate s with
      | none => none
      | some d => if now ≤ d then some d else none

/-- Building one buffered record from an extractor candidate
(lines 503-535): clamp priority into [1,4], validate the deadline,
normalise falsy `company`/`role` to undefined. -/
def buildTaskData (parseDate : String → Option Int) (now : Int) (userId : String)
    (t : ExtractedTask) : TaskCreateData :=
  { title := t.title
    priority := max 1 (min 4 t.priority)
    deadline := validatedDeadline parseDate now t.deadline
    taskType := t.task_type
    company := match t.company with | some "" => none | c => c
    role := match t.role with | some "" => none | r => r
    details := t.details
    links := t.links
    status := "todo"
    userId := userId }

/-- Per-message processing inside the batch map (lines 475-547): dedup
hit is a no-op success, extractor failure rejects the message's promise,
an actionable analysis yields its built records. -/
def processEmail (env : RunEnv) (email : Email) :
    Except String (List TaskCreateData) :=
  if dedupFound env email then .ok []
  else
    match env.extract email.content with
    | .error e => .error e
    | .ok analysis =>
      if analysis.is_actionable then
        .ok (analysis.tasks.map (buildTaskData env.parseDate env.now env.userId))
      else .ok []

/-- Number of fulfilled results in a settled batch. -/
def okCount : List (Except String (List TaskCreateData)) → Nat
  | [] => 0
  | .ok _ :: rest => okCount rest + 1
  | .error _ :: rest => okCount rest

/-- Number of rejected results in a settled batch. -/
def errCount : List (Except String (List TaskCreateData)) → Nat
  | [] => 0
  | .ok _ :: rest => errCount rest
  | .error _ :: rest => errCount rest + 1

/-- Concatenation, in order, of the fulfilled results of a settled batch
(the `allTasksToCreate.push(...result.value)` loop of lines 551-558). -/
def concatOks : List (Except String (List TaskCreateData)) → List TaskCreateData
  | [] => []
  | .ok ts :: rest => ts ++ concatOks rest
  | .error _ :: rest => concatOks rest

/-- Fulfilled messages among `es`. -/
def emailOkCount (env : RunEnv) (es : List Email) : Nat :=
  okCount (es.map (processEmail env))

/-- Rejected messages among `es`. -/
def emailErrCount (env : RunEnv) (es : List Email) : Nat :=
  errCount (es.map (processEmail env))

/-- Records buffered by processing `es` in order. -/
def collectTasks (env : RunEnv) (es : List Email) : List TaskCreateData :=
  concatOks (es.map (processEmail env))

/-- Slices of size 3, in order: the `for (let i = 0; ...; i += batchSize)`
slicing with `batchSize = 3` (lines 469-471). -/
def chunks3 : List α → List (List α)
  | [] => []
  | [a] => [[a]]
  | [a, b] => [[a, b]]
  | a :: b :: c :: rest => [a, b, c] :: chunks3 rest

/-- The batch progress formula of lines 561-562:
`Math.min(20 + ((processed + failed) / total) * 60, 80)`. -/
def batchProgress (settled total : Nat) : ℚ :=
  min (20 + ((settled : ℚ) / (total : ℚ)) * 60) 80

/-- The status update written after a batch settles (lines 564-569). -/
def batchUpdate (total p f : Nat) : SyncStatusUpdate :=
  { progress := some (batchProgress (p + f) total)
    currentStep := some ("Analyzing emails... " ++ toString (p + f) ++ "/" ++ toString total)
    processedEmails := some p
    emailsFailed := some f }

/-- The batched processing loop (lines 470-575) over pre-sliced batches:
threads the status value, the `processedEmails`/`failedEmails` counters
and the `allTasksToCreate` buffer, and returns the list of statuses
written (in order) together with the final status and accumulators. -/
def processBatches (env : RunEnv) (total : Nat) :
    List (List Email) → SyncStatus → Nat → Nat → List TaskCreateData →
    List SyncStatus × SyncStatus × Nat × Nat × List TaskCreateData
  | [], cur, p, f, buf => ([], cur, p, f, buf)
  | c :: cs, cur, p, f, buf =>
    let results := c.map (processEmail env)
    let p2 := p + okCount results
    let f2 := f + errCount results
    let buf2 := buf ++ concatOks results
    let cur2 := updateSyncStatus cur (batchUpdate total p2 f2) env.now
    let r := processBatches env total cs cur2 p2 f2 buf2
    (cur2 :: r.1, r.2)

/-- The update written by the run-level `catch` (lines 623-627). -/
def failUpdate (msg : String) : SyncStatusUpdate :=
  { isProcessing := some false
    error := some (some msg)
    currentStep := some "Sync failed" }

/-- The `createMany` call of lines 584-595: only issued when the buffer
is non-empty. -/
def dbAttempt (env : RunEnv) (buf : List TaskCreateData) : Except String Nat :=
  if buf.isEmpty then .ok 0 else env.dbInsert buf

/-- `processEmailsAsync` (lines 429-628), as the ordered list of status
values it writes to the store after the accepted initial status `s0`.
Every exception escaping the body reaches the final `catch`, which
writes `failUpdate`. -/
def processEmailsAsync (env : RunEnv) (s0 : SyncStatus) : List SyncStatus :=
  let s1 := updateSyncStatus s0
    { progress := some 10, currentStep := some "Fetching recent emails..." } env.now
  match env.fetchResult with
  | .error msg => [s1, updateSyncStatus s1 (failUpdate msg) env.now]
  | .ok emails =>
    if emails.isEmpty then
      [s1, updateSyncStatus s1
        { isProcessing := some false, progress := some 100,
          currentStep := some "No new emails found", totalEmails := some 0 } env.now]
    else
      let s2 := updateSyncStatus s1
        { progress := some 20, currentStep := some "Analyzing emails with AI...",
          totalEmails := some emails.length } env.now
      let r := processBatches env emails.length (chunks3 emails) s2 0 0 []
      let s3 := updateSyncStatus r.2.1
        { progress := some 85, currentStep := some "Saving tasks to database..." } env.now
      match dbAttempt env r.2.2.2.2 with
      | .error msg =>
        s1 :: s2 :: r.1 ++ [s3, updateSyncStatus s3 (failUpdate msg) env.now]
      | .ok _ =>
        let s4 := updateSyncStatus s3
          { isProcessing := some false, progress := some 100,
            currentStep := some "Sync completed successfully!",
            processedEmails := some r.2.2.1, emailsFailed := some r.2.2.2.1,
            tasksCreated := some r.2.2.2.2.length } env.now
        s1 :: s2 :: r.1 ++ [s3, s4]

/-- The buffer handed to the bulk create on the non-empty path. -/
def runBuffer (env : RunEnv) : List TaskCreateData :=
  match env.fetchResult with
  | .error _ => []
  | .ok emails => collectTasks env emails

/-- The last status a run writes. -/
def lastStatus (env : RunEnv) (s0 : SyncStatus) : SyncStatus :=
  (processEmailsAsync env s0).getLastD s0

/-! ### Helper lemmas about counters, chunking and the batch loop -/

theorem okCount_append (xs ys : List (Except String (List TaskCreateData))) :
    okCount (xs ++ ys) = okCount xs + okCount ys := by
  induction xs with
  | nil => simp [okCount]
  | cons r rest ih =>
    cases r <;> simp [okCount, ih]
    omega

theorem errCount_append (xs ys : List (Except String (List TaskCreateData))) :
    errCount (xs ++ ys) = errCount xs + errCount ys := by
  induction xs with
  | nil => simp [errCount]
  | cons r rest ih =>
    cases r <;> simp [errCount, ih]
    omega

theorem concatOks_append (xs ys : List (Except String (List TaskCreateData))) :
    concatOks (xs ++ ys) = concatOks xs ++ concatOks ys := by
  induction xs with
  | nil => simp [concatOks]
  | cons r rest ih => cases r <;> simp [concatOks, ih]

theorem okCount_add_errCount (rs : List (Except String (List TaskCreateData))) :
    okCount rs + errCount rs = rs.length := by
  induction rs with
  | nil => simp [okCount, errCount]
  | cons r rest ih => cases r <;> simp [okCount, errCount] <;> omega

theorem emailOkCount_append (env : RunEnv) (xs ys : List Email) :
    emailOkCount env (xs ++ ys) = emailOkCount env xs + emailOkCount env ys := by
  simp [emailOkCount, okCount_append]

theorem emailErrCount_append (env : RunEnv) (xs ys : List Email) :
    emailErrCount env (xs ++ ys) = emailErrCount env xs + emailErrCount env ys := by
  simp [emailErrCount, errCount_append]

theorem collectTasks_append (env : RunEnv) (xs ys : List Email) :
    collectTasks env (xs ++ ys) = collectTasks env xs ++ collectTasks env ys := by
  simp [collectTasks, concatOks_append]

theorem emailOkCount_add_errCount (env : RunEnv) (es : List Email) :
    emailOkCount env es + emailErrCount env es = es.length := by
  simpa [emailOkCount, emailErrCount] using okCount_add_errCount (es.map (processEmail env))

theorem chunks3_flatten : (l : List α) → (chunks3 l).flatten = l
  | [] => by simp [chunks3]
  | [a] => by simp [chunks3]
  | [a, b] => by simp [chunks3]
  | a :: b :: c :: rest => by simp [chunks3, chunks3_flatten rest]

theorem batchProgress_le_80 (settled total : Nat) : batchProgress settled total ≤ 80 :=
  min_le_right _ _

theorem batchProgress_ge_20 (settled total : Nat) : 20 ≤ batchProgress settled total := by
  refine le_min (le_add_of_nonneg_right ?_) (by norm_num)
  positivity

theorem batchProgress_mono (total : Nat) {a b : Nat} (h : a ≤ b) :
    batchProgress a total ≤ batchProgress b total := by
  unfold batchProgress
  refine min_le_min (add_le_add_left ?_ _) le_rfl
  have hd : (a : ℚ) / total ≤ (b : ℚ) / total := by gcongr
  linarith

theorem processBatches_counts (env : RunEnv) (total : Nat) :
    ∀ (cs : List (List Email)) (cur : SyncStatus) (p f : Nat) (buf : List TaskCreateData),
    (processBatches env total cs cur p f buf).2.2.1 = p + emailOkCount env cs.flatten ∧
    (processBatches env total cs cur p f buf).2.2.2.1 = f + emailErrCount env cs.flatten ∧
    (processBatches env total cs cur p f buf).2.2.2.2 = buf ++ collectTasks env cs.flatten := by
  intro cs
  induction cs with
  | nil =>
    intro cur p f buf
    simp [processBatches, emailOkCount, emailErrCount, collectTasks, okCount, errCount,
      concatOks]
  | cons c cs ih =>
    intro cur p f buf
    obtain ⟨h1, h2, h3⟩ := ih
      (updateSyncStatus cur
        (batchUpdate total (p + okCount (c.map (processEmail env)))
          (f + errCount (c.map (processEmail env)))) env.now)
      (p + okCount (c.map (processEmail env)))
      (f + errCount (c.map (processEmail env)))
      (buf ++ concatOks (c.map (processEmail env)))
    refine ⟨?_, ?_, ?_⟩
    · show (processBatches env total cs _ _ _ _).2.2.1 = _
      rw [h1, List.flatten_cons, emailOkCount_append]
      simp only [emailOkCount]
      omega
    · show (processBatches env total cs _ _ _ _).2.2.2.1 = _
      rw [h2, List.flatten_cons, emailErrCount_append]
      simp only [emailErrCount]
      omega
    · show (processBatches env total cs _ _ _ _).2.2.2.2 = _
      rw [h3, List.flatten_cons, collectTasks_append]
      simp only [collectTasks, List.append_assoc]

theorem processBatches_fin (env : RunEnv) (total : Nat) :
    ∀ (cs : List (List Email)) (cur : SyncStatus) (p f : Nat) (buf : List TaskCreateData),
    (processBatches env total cs cur p f buf).2.1 =
      (processBatches env total cs cur p f buf).1.getLastD cur := by
  intro cs
  induction cs with
  | nil => intro cur p f buf; simp [processBatches]
  | cons c cs ih =>
    intro cur p f buf
    simp only [processBatches]
    rw [ih, List.getLastD_cons]

theorem processBatches_fields (env : RunEnv) (total : Nat) :
    ∀ (cs : List (List Email)) (cur : SyncStatus) (p f : Nat) (buf : List TaskCreateData),
    ∀ s ∈ (processBatches env total cs cur p f buf).2.1 ::
        (processBatches env total cs cur p f buf).1,
      s.totalEmails = cur.totalEmails ∧ s.isProcessing = cur.isProcessing ∧
      s.error = cur.error ∧ s.tasksCreated = cur.tasksCreated ∧
      s.lastSync = cur.lastSync := by
  intro cs
  induction cs with
  | nil =>
    intro cur p f buf s hs
    have h : s = cur := by simpa [processBatches] using hs
    subst h
    exact ⟨rfl, rfl, rfl, rfl, rfl⟩
  | cons c cs ih =>
    intro cur p f buf s hs
    simp only [processBatches, List.mem_cons] at hs
    set cur2 := updateSyncStatus cur
      (batchUpdate total (p + okCount (c.map (processEmail env)))
        (f + errCount (c.map (processEmail env)))) env.now with hcur2
    have hfields : cur2.totalEmails = cur.totalEmails ∧ cur2.isProcessing = cur.isProcessing ∧
        cur2.error = cur.error ∧ cur2.tasksCreated = cur.tasksCreated ∧
        cur2.lastSync = cur.lastSync := by
      simp [hcur2, updateSyncStatus, batchUpdate]
    rcases hs with hs | hs | hs
    · have := ih cur2 (p + okCount (c.map (processEmail env)))
        (f + errCount (c.map (processEmail env)))
        (buf ++ concatOks (c.map (processEmail env))) s (List.mem_cons.mpr (Or.inl hs))
      exact ⟨this.1.trans hfields.1, this.2.1.trans hfields.2.1, this.2.2.1.trans hfields.2.2.1,
        this.2.2.2.1.trans hfields.2.2.2.1, this.2.2.2.2.trans hfields.2.2.2.2⟩
    · subst hs; exact hfields
    · have := ih cur2 (p + okCount (c.map (processEmail env)))
        (f + errCount (c.map (processEmail env)))
        (buf ++ concatOks (c.map (processEmail env))) s (List.mem_cons.mpr (Or.inr hs))
      exact ⟨this.1.trans hfields.1, this.2.1.trans hfields.2.1, this.2.2.1.trans hfields.2.2.1,
        this.2.2.2.1.trans hfields.2.2.2.1, this.2.2.2.2.trans hfields.2.2.2.2⟩

theorem processBatches_fin_counters (env : RunEnv) (total : Nat) :
    ∀ (cs : List (List Email)) (cur : SyncStatus) (p f : Nat) (buf : List TaskCreateData),
    cur.processedEmails = p → cur.emailsFailed = f →
    (processBatches env total cs cur p f buf).2.1.processedEmails =
      (processBatches env total cs cur p f buf).2.2.1 ∧
    (processBatches env total cs cur p f buf).2.1.emailsFailed =
      (processBatches env total cs cur p f buf).2.2.2.1 := by
  intro cs
  induction cs with
  | nil => intro cur p f buf hp hf; simp [processBatches, hp, hf]
  | cons c cs ih =>
    intro cur p f buf hp hf
    simp only [processBatches]
    exact ih _ _ _ _ (by simp [updateSyncStatus, batchUpdate]) (by simp [updateSyncStatus, batchUpdate])

theorem processBatches_mem_counters (env : RunEnv) (total : Nat) :
    ∀ (cs : List (List Email)) (cur : SyncStatus) (p f : Nat) (buf : List TaskCreateData),
    ∀ s ∈ (processBatches env total cs cur p f buf).1,
      s.processedEmails + s.emailsFailed ≤ p + f + cs.flatten.length := by
  intro cs
  induction cs with
  | nil => intro cur p f buf s hs; simp [processBatches] at hs
  | cons c cs ih =>
    intro cur p f buf s hs
    simp only [processBatches, List.mem_cons] at hs
    have hlen : okCount (c.map (processEmail env)) + errCount (c.map (processEmail env)) =
        c.length := by
      simpa using okCount_add_errCount (c.map (processEmail env))
    rcases hs with hs | hs
    · subst hs
      have e1 : (updateSyncStatus cur
          (batchUpdate total (p + okCount (c.map (processEmail env)))
            (f + errCount (c.map (processEmail env)))) env.now).processedEmails =
          p + okCount (c.map (processEmail env)) := by
        simp [updateSyncStatus, batchUpdate]
      have e2 : (updateSyncStatus cur
          (batchUpdate total (p + okCount (c.map (processEmail env)))
            (f + errCount (c.map (processEmail env)))) env.now).emailsFailed =
          f + errCount (c.map (processEmail env)) := by
        simp [updateSyncStatus, batchUpdate]
      rw [e1, e2, List.flatten_cons, List.length_append]
      omega
    · have := ih (updateSyncStatus cur
          (batchUpdate total (p + okCount (c.map (processEmail env)))
            (f + errCount (c.map (processEmail env)))) env.now)
        (p + okCount (c.map (processEmail env)))
        (f + errCount (c.map (processEmail env)))
        (buf ++ concatOks (c.map (processEmail env))) s hs
      rw [List.flatten_cons, List.length_append]
      omega

theorem processBatches_chain (env : RunEnv) (total : Nat) :
    ∀ (cs : List (List Email)) (cur : SyncStatus) (p f : Nat) (buf : List TaskCreateData),
    cur.progress ≤ batchProgress (p + f) total →
    List.Chain' (fun a b => a.progress ≤ b.progress)
      (cur :: (processBatches env total cs cur p f buf).1) ∧
    (∀ s ∈ (processBatches env total cs cur p f buf).1,
      20 ≤ s.progress ∧ s.progress ≤ 80) ∧
    (processBatches env total cs cur p f buf).2.1.progress ≤ 80 := by
  intro cs
  induction cs with
  | nil =>
    intro cur p f buf hcur
    refine ⟨by simp [processBatches], by simp [processBatches], ?_⟩
    simp only [processBatches]
    exact hcur.trans (batchProgress_le_80 _ _)
  | cons c cs ih =>
    intro cur p f buf hcur
    simp only [processBatches]
    set p2 := p + okCount (c.map (processEmail env)) with hp2
    set f2 := f + errCount (c.map (processEmail env)) with hf2
    set cur2 := updateSyncStatus cur (batchUpdate total p2 f2) env.now with hcur2
    have hc2 : cur2.progress = batchProgress (p2 + f2) total := by
      simp [hcur2, updateSyncStatus, batchUpdate]
    obtain ⟨ihchain, ihmem, ihfin⟩ := ih cur2 p2 f2 (buf ++ concatOks (c.map (processEmail env)))
      (le_of_eq hc2)
    have hstep : cur.progress ≤ cur2.progress := by
      rw [hc2]
      exact hcur.trans (batchProgress_mono total (by omega))
    refine ⟨List.chain'_cons.mpr ⟨hstep, ihchain⟩, ?_, ihfin⟩
    intro s hs
    rcases List.mem_cons.mp hs with hs | hs
    · subst hs
      exact ⟨hc2 ▸ batchProgress_ge_20 _ _, hc2 ▸ batchProgress_le_80 _ _⟩
    · exact ihmem s hs

theorem getLast?_cons_getLastD (a : α) (l : List α) :
    (a :: l).getLast? = some (l.getLastD a) := by
  induction l generalizing a with
  | nil => simp
  | cons b l ih => rw [List.getLast?_cons_cons, ih, List.getLastD_cons]

theorem getLastD_append_pair (l : List α) (a b d : α) :
    (l ++ [a, b]).getLastD d = b := by
  rw [show l ++ [a, b] = (l ++ [a]) ++ [b] by simp, List.getLastD_concat]

/-! ### The user-facing task update path -/

/-- The body accepted by `taskUpdateSchema` (`src/lib/env.ts`,
lines 24-29): `status` required, the rest optional. -/
structure TaskUpdateInput where
  status : String
  priority : Option Int := none
  title : Option String := none
  details : Option String := none
  deriving Repr, DecidableEq

/-- `taskUpdateSchema.parse` succeeds exactly on these bodies:
`status` one of the three enum values, `priority` in [1,10] when given,
`title` of length 1-200 when given, `details` of length at most 1000
when given. -/
def taskUpdateValid (u : TaskUpdateInput) : Bool :=
  (u.status = "todo" || u.status = "in_progress" || u.status = "done")
    && (match u.priority with | none => true | some p => 1 ≤ p && p ≤ 10)
    && (match u.title with | none => true | some t => 1 ≤ t.length && t.length ≤ 200)
    && (match u.details with | none => true | some d => d.length ≤ 1000)

/-- The editable columns of a stored `Task` row touched by the PATCH
handler. -/
structure StoredTask where
  title : String
  details : String
  priority : Int
  status : String
  deriving Repr, DecidableEq

/-- The PATCH handler of `src/app/api/tasks/[id]/route.js` (typed
variant): validate the body with `taskUpdateSchema`, then write the
provided fields verbatim with `prisma.task.update`; `none` models the
thrown validation error. -/
def patchTask (t : StoredTask) (u : TaskUpdateInput) : Option StoredTask :=
  if taskUpdateValid u then
    some { title := u.title.getD t.title
           details := u.details.getD t.details
           priority := u.priority.getD t.priority
           status := u.status }
  else none

/-! ### Deadline rejection predicate and buffer membership -/

/-- A reported deadline that is unparsable, or parses strictly before
the current moment. -/
def deadlineRejected (parseDate : String → Option Int) (now : Int)
    (t : ExtractedTask) : Bool :=
  match t.deadline with
  | none => false
  | some s =>
    match parseDate s with
    | none => true
    | some d => decide (d < now)

theorem processEmail_ok_shape (env : RunEnv) (e : Email)
    (ts : List TaskCreateData) (h : processEmail env e = .ok ts) :
    ∀ rec ∈ ts, ∃ t, rec = buildTaskData env.parseDate env.now env.userId t := by
  unfold processEmail at h
  split at h
  · cases h; simp
  · split at h
    · exact absurd h (by simp)
    · split at h
      · cases h
        intro rec hrec
        obtain ⟨t, _, rfl⟩ := List.mem_map.mp hrec
        exact ⟨t, rfl⟩
      · cases h; simp

theorem mem_collectTasks (env : RunEnv) :
    ∀ (es : List Email) (rec : TaskCreateData), rec ∈ collectTasks env es →
      ∃ t, rec = buildTaskData env.parseDate env.now env.userId t := by
  intro es
  induction es with
  | nil => intro rec hrec; simp [collectTasks, concatOks] at hrec
  | cons e rest ih =>
    intro rec hrec
    simp only [collectTasks, List.map_cons] at hrec
    cases hpe : processEmail env e with
    | ok ts =>
      rw [hpe] at hrec
      simp only [concatOks, List.mem_append] at hrec
      rcases hrec with hrec | hrec
      · exact processEmail_ok_shape env e ts hpe rec hrec
      · exact ih rec hrec
    | error m =>
      rw [hpe] at hrec
      simp only [concatOks] at hrec
      exact ih rec hrec

theorem mem_runBuffer_buildTaskData (env : RunEnv) (rec : TaskCreateData)
    (h : rec ∈ runBuffer env) :
    ∃ t, rec = buildTaskData env.parseDate env.now env.userId t := by
  unfold runBuffer at h
  split at h
  · simp at h
  · exact mem_collectTasks env _ rec h

theorem clamp_priority_bounds (p : Int) :
    1 ≤ max 1 (min 4 p) ∧ max 1 (min 4 p) ≤ 4 :=
  ⟨le_max_left _ _, max_le (by norm_num) (min_le_left _ _)⟩

theorem validatedDeadline_some_ge (pd : String → Option Int) (now : Int)
    (dl : Option String) (d : Int) (h : validatedDeadline pd now dl = some d) :
    now ≤ d := by
  unfold validatedDeadline at h
  split at h
  · exact absurd h (by simp)
  · split at h
    · exact absurd h (by simp)
    · split at h
      · exact absurd h (by simp)
      · split at h
        · cases h; assumption
        · exact absurd h (by simp)

/-! ### Concrete sample runs used by witnesses and counterexamples -/

/-- A task candidate as the extractor typically reports it. -/
def sampleTask : ExtractedTask :=
  { title := "Prepare for the interview", priority := 3, deadline := none,
    task_type := "interview", company := some "Acme", role := some "SWE",
    details := "interview scheduled", links := [] }

/-- A mail-source message; the id is a Gmail-style message id. -/
def sampleEmail : Email :=
  { id := "17a2b9c4d5e6f70", content := "interview email" }

/-- A second message whose processing will throw. -/
def throwingEmail : Email :=
  { id := "17a2b9c4d5e6f71", content := "boom" }

/-- One-message run: the extractor finds one actionable task. -/
def sampleEnv : RunEnv :=
  { userId := "u1"
    fetchResult := .ok [sampleEmail]
    existingTasks := []
    extract := fun _ => .ok { is_actionable := true, tasks := [sampleTask] }
    parseDate := fun _ => none
    now := 1000000
    dbInsert := fun _ => .ok 0 }

/-- Re-run of `sampleEnv` immediately after its success: the store now
holds the task the first run created (title from the extractor,
`createdAt` within the trailing 7 days), and the mail source returns the
same message. -/
def rerunEnv : RunEnv :=
  { sampleEnv with existingTasks :=
      [{ userId := "u1", title := "Prepare for the interview", createdAt := 999999 }] }

/-- Two-message run where the second message's extractor call throws. -/
def throwingEnv : RunEnv :=
  { sampleEnv with
      fetchResult := .ok [sampleEmail, throwingEmail]
      extract := fun c =>
        if c = "boom" then .error "LLM failed"
        else .ok { is_actionable := false, tasks := [] } }

/-- Run whose mail fetch rejects. -/
def fetchFailEnv : RunEnv :=
  { sampleEnv with fetchResult := .error "Gmail unreachable" }

/-! ### Claims -/

/-- C1: a `startSync` trigger call made while the stored status has
`isProcessing = true` at the admission check is answered with HTTP 409
and performs no write: the store, hence `totalEmails`,
`processedEmails` and every other field of the in-flight run's status,
is exactly what it was before the call. -/
theorem startSync_conflict_rejects_without_write (s : SyncStatus) (now : Int)
    (h : s.isProcessing = true) :
    startSyncPOST (some s) now = (409, some s) := by
  simp [startSyncPOST, h]

theorem startSync_conflict_rejects_without_write_witness :
    ({ defaultSyncStatus with isProcessing := true } : SyncStatus).isProcessing = true ∧
    startSyncPOST (some { defaultSyncStatus with isProcessing := true }) 7 =
      (409, some { defaultSyncStatus with isProcessing := true }) :=
  ⟨rfl, startSync_conflict_rejects_without_write _ 7 rfl⟩

/-- C7: a task candidate whose reported deadline is unparsable or
strictly before the current moment is buffered with `deadline = null`,
and no record in the persistence buffer of any run carries a non-null
deadline earlier than the extraction moment. -/
theorem deadline_validation_never_past (env : RunEnv) :
    (∀ t : ExtractedTask, deadlineRejected env.parseDate env.now t = true →
      (buildTaskData env.parseDate env.now env.userId t).deadline = none) ∧
    (∀ rec ∈ runBuffer env, ∀ d : Int, rec.deadline = some d → env.now ≤ d) := by
  constructor
  · intro t ht
    have hb : (buildTaskData env.parseDate env.now env.userId t).deadline =
        validatedDeadline env.parseDate env.now t.deadline := rfl
    rw [hb]
    cases hd : t.deadline with
    | none => simp [validatedDeadline]
    | some s =>
      have ht2 : (match env.parseDate s with
          | none => true
          | some d => decide (d < env.now)) = true := by
        unfold deadlineRejected at ht
        rw [hd] at ht
        exact ht
      unfold validatedDeadline
      by_cases hse : s.isEmpty
      · simp [hse]
      · simp only [hse, if_false]
        cases hp : env.parseDate s with
        | none => rfl
        | some d =>
          rw [hp] at ht2
          simp only [decide_eq_true_eq] at ht2
          simp [not_le.mpr ht2]
  · intro rec hrec d hd
    obtain ⟨t, rfl⟩ := mem_runBuffer_buildTaskData env rec hrec
    exact validatedDeadline_some_ge env.parseDate env.now t.deadline d hd

theorem deadline_validation_never_past_witness :
    deadlineRejected sampleEnv.parseDate sampleEnv.now
      { sampleTask with deadline := some "2020-01-01" } = true ∧
    (buildTaskData sampleEnv.parseDate sampleEnv.now sampleEnv.userId
      { sampleTask with deadline := some "2020-01-01" }).deadline = none :=
  ⟨by decide, (deadline_validation_never_past sampleEnv).1 _ (by decide)⟩

/-- C8 (counterexample): the user-facing update path does not restrict
priorities to [1,4]: `taskUpdateSchema` accepts `priority = 7` (its
bound is `.min(1).max(10)`) and the PATCH handler stores it verbatim,
so a task ends up with priority 7, outside [1,4]. -/
theorem update_path_stores_priority_outside_range :
    (patchTask { title := "T", details := "", priority := 2, status := "todo" }
        { status := "todo", priority := some 7 }).map (fun t => t.priority) = some 7 ∧
    ¬ ((7 : Int) ≤ 4) := by decide

/-- C8 (amended): every record the sync run buffers for bulk create has
its priority clamped into [1,4]; the user-facing update path, however,
only validates an explicitly provided priority into [1,10] and stores
it unchanged, so it can store priorities outside [1,4]. -/
theorem priority_bounds_amended (env : RunEnv) :
    (∀ rec ∈ runBuffer env, 1 ≤ rec.priority ∧ rec.priority ≤ 4) ∧
    (∀ (t : StoredTask) (u : TaskUpdateInput) (t2 : StoredTask) (p : Int),
      patchTask t u = some t2 → u.priority = some p →
      t2.priority = p ∧ 1 ≤ p ∧ p ≤ 10) := by
  constructor
  · intro rec hrec
    obtain ⟨t, rfl⟩ := mem_runBuffer_buildTaskData env rec hrec
    exact clamp_priority_bounds t.priority
  · intro t u t2 p hpt hp
    unfold patchTask at hpt
    split at hpt
    · rename_i hv
      cases hpt
      unfold taskUpdateValid at hv
      rw [hp] at hv
      simp only [Bool.and_eq_true, decide_eq_true_eq] at hv
      exact ⟨by simp [hp], hv.1.1.2.1, hv.1.1.2.2⟩
    · exact absurd hpt (by simp)

theorem priority_bounds_amended_witness :
    buildTaskData sampleEnv.parseDate sampleEnv.now sampleEnv.userId sampleTask ∈
      runBuffer sampleEnv ∧
    1 ≤ (buildTaskData sampleEnv.parseDate sampleEnv.now sampleEnv.userId
      sampleTask).priority ∧
    (buildTaskData sampleEnv.parseDate sampleEnv.now sampleEnv.userId
      sampleTask).priority ≤ 4 := by
  refine ⟨by decide, ?_⟩
  exact (priority_bounds_amended sampleEnv).1 _ (by decide)

/-- C9 (counterexample): the status-store merge stamps `lastSync`
whenever the update object carries `isProcessing: false`, even when the
stored status already has `isProcessing = false` (no transition): on the
zeroed default status such a merge changes `lastSync` from `null` to the
current time, contradicting the claim that it would be left unchanged. -/
theorem lastSync_stamped_without_transition :
    defaultSyncStatus.isProcessing = false ∧ defaultSyncStatus.lastSync = none ∧
    (updateSyncStatus defaultSyncStatus { isProcessing := some false } 5).lastSync =
      some 5 := by decide

/-- C9 (amended): the merge stamps `lastSync` with the current time
exactly when the update object itself carries `isProcessing: false`,
regardless of the stored value; a merge whose update object does not
set `isProcessing` to false leaves `lastSync` unchanged. -/
theorem lastSync_stamp_amended (cur : SyncStatus) (u : SyncStatusUpdate) (now : Int) :
    (u.isProcessing = some false → (updateSyncStatus cur u now).lastSync = some now) ∧
    (u.isProcessing ≠ some false → (updateSyncStatus cur u now).lastSync = cur.lastSync) := by
  constructor <;> intro h <;> simp [updateSyncStatus, h]

theorem lastSync_stamp_amended_witness :
    initialUpdate.isProcessing ≠ some false ∧
    (updateSyncStatus defaultSyncStatus initialUpdate 3).lastSync =
      defaultSyncStatus.lastSync :=
  ⟨by decide, (lastSync_stamp_amended defaultSyncStatus initialUpdate 3).2 (by decide)⟩

theorem processBatches_buf_eq (env : RunEnv) (total : Nat) (cur : SyncStatus)
    (emails : List Email) :
    (processBatches env total (chunks3 emails) cur 0 0 []).2.2.2.2 =
      collectTasks env emails := by
  rw [(processBatches_counts env total (chunks3 emails) cur 0 0 []).2.2, chunks3_flatten]
  simp

theorem processBatches_p_eq (env : RunEnv) (total : Nat) (cur : SyncStatus)
    (emails : List Email) :
    (processBatches env total (chunks3 emails) cur 0 0 []).2.2.1 =
      emailOkCount env emails := by
  rw [(processBatches_counts env total (chunks3 emails) cur 0 0 []).1, chunks3_flatten]
  simp

theorem processBatches_f_eq (env : RunEnv) (total : Nat) (cur : SyncStatus)
    (emails : List Email) :
    (processBatches env total (chunks3 emails) cur 0 0 []).2.2.2.1 =
      emailErrCount env emails := by
  rw [(processBatches_counts env total (chunks3 emails) cur 0 0 []).2.1, chunks3_flatten]
  simp

theorem runBuffer_eq_of_ok (env : RunEnv) (emails : List Email)
    (hf : env.fetchResult = .ok emails) :
    runBuffer env = collectTasks env emails := by
  unfold runBuffer
  rw [hf]

/-- C2: in a run whose mail fetch and final persistence succeed, thrown
per-message processing does not abort the run: the run terminates in the
success terminal state (`isProcessing = false`, `progress = 100`,
`error = null`) with `emailsFailed` counting exactly the messages whose
processing threw and `processedEmails` counting exactly the messages
whose processing did not throw — the other messages of the same batch
and of later batches are all still processed. -/
theorem run_tolerates_message_failures (env : RunEnv) (store : Option SyncStatus)
    (t0 : Int) (emails : List Email) (k : Nat)
    (hf : env.fetchResult = .ok emails) (hne : emails ≠ [])
    (hdb : dbAttempt env (runBuffer env) = .ok k) :
    (lastStatus env (acceptedStatus store t0)).isProcessing = false ∧
    (lastStatus env (acceptedStatus store t0)).progress = 100 ∧
    (lastStatus env (acceptedStatus store t0)).error = none ∧
    (lastStatus env (acceptedStatus store t0)).processedEmails = emailOkCount env emails ∧
    (lastStatus env (acceptedStatus store t0)).emailsFailed = emailErrCount env emails := by
  cases emails with
  | nil => exact absurd rfl hne
  | cons e es =>
  rw [runBuffer_eq_of_ok env (e :: es) hf] at hdb
  unfold lastStatus processEmailsAsync
  rw [hf]
  simp only [List.isEmpty_cons, Bool.false_eq_true, if_false]
  rw [show dbAttempt env (processBatches env (e :: es).length (chunks3 (e :: es))
      (updateSyncStatus
        (updateSyncStatus (acceptedStatus store t0)
          { progress := some 10, currentStep := some "Fetching recent emails..." } env.now)
        { progress := some 20, currentStep := some "Analyzing emails with AI...",
          totalEmails := some (e :: es).length } env.now) 0 0 []).2.2.2.2 =
      Except.ok k by rw [processBatches_buf_eq]; exact hdb]
  dsimp only
  simp only [List.getLastD_cons, getLastD_append_pair]
  set s1 := updateSyncStatus (acceptedStatus store t0)
    { progress := some 10, currentStep := some "Fetching recent emails..." } env.now with hs1
  set s2 := updateSyncStatus s1
    { progress := some 20, currentStep := some "Analyzing emails with AI...",
      totalEmails := some (e :: es).length } env.now with hs2
  set r := processBatches env (e :: es).length (chunks3 (e :: es)) s2 0 0 [] with hr
  have herr : r.2.1.error = s2.error :=
    (processBatches_fields env (e :: es).length (chunks3 (e :: es)) s2 0 0 [] r.2.1
      (List.mem_cons_self _ _)).2.2.1
  have herr2 : s2.error = (acceptedStatus store t0).error := by
    simp [hs2, hs1, updateSyncStatus]
  have herr3 : (acceptedStatus store t0).error = none := by
    simp [acceptedStatus, updateSyncStatus, initialUpdate]
  refine ⟨by simp [updateSyncStatus], by simp [updateSyncStatus], ?_, ?_, ?_⟩
  · show (updateSyncStatus _ _ _).error = none
    simp only [updateSyncStatus]
    simp
    rw [herr, herr2, herr3]
  · show (updateSyncStatus _ _ _).processedEmails = _
    simp only [updateSyncStatus]
    simp
    exact processBatches_p_eq env (e :: es).length s2 (e :: es)
  · show (updateSyncStatus _ _ _).emailsFailed = _
    simp only [updateSyncStatus]
    simp
    exact processBatches_f_eq env (e :: es).length s2 (e :: es)

theorem run_tolerates_message_failures_witness :
    throwingEnv.fetchResult = .ok [sampleEmail, throwingEmail] ∧
    ([sampleEmail, throwingEmail] : List Email) ≠ [] ∧
    dbAttempt throwingEnv (runBuffer throwingEnv) = .ok 0 ∧
    ((lastStatus throwingEnv (acceptedStatus none 0)).isProcessing = false ∧
     (lastStatus throwingEnv (acceptedStatus none 0)).progress = 100 ∧
     (lastStatus throwingEnv (acceptedStatus none 0)).error = none ∧
     (lastStatus throwingEnv (acceptedStatus none 0)).processedEmails =
       emailOkCount throwingEnv [sampleEmail, throwingEmail] ∧
     (lastStatus throwingEnv (acceptedStatus none 0)).emailsFailed =
       emailErrCount throwingEnv [sampleEmail, throwingEmail]) :=
  ⟨rfl, by decide, rfl,
    run_tolerates_message_failures throwingEnv none 0 [sampleEmail, throwingEmail] 0
      rfl (by decide) rfl⟩

/-- C10: on the success path, the `tasksCreated` value written into the
terminal status equals the length of the buffered candidate list handed
to the bulk create, independent of how many rows the store reports
having actually inserted (records skipped by `skipDuplicates` are still
counted). -/
theorem tasksCreated_counts_buffer_length (env : RunEnv) (store : Option SyncStatus)
    (t0 : Int) (emails : List Email) (k : Nat)
    (hf : env.fetchResult = .ok emails) (hne : emails ≠ [])
    (hdb : dbAttempt env (runBuffer env) = .ok k) :
    (lastStatus env (acceptedStatus store t0)).tasksCreated = (runBuffer env).length := by
  cases emails with
  | nil => exact absurd rfl hne
  | cons e es =>
  rw [runBuffer_eq_of_ok env (e :: es) hf] at hdb ⊢
  unfold lastStatus processEmailsAsync
  rw [hf]
  simp only [List.isEmpty_cons, Bool.false_eq_true, if_false]
  rw [show dbAttempt env (processBatches env (e :: es).length (chunks3 (e :: es))
      (updateSyncStatus
        (updateSyncStatus (acceptedStatus store t0)
          { progress := some 10, currentStep := some "Fetching recent emails..." } env.now)
        { progress := some 20, currentStep := some "Analyzing emails with AI...",
          totalEmails := some (e :: es).length } env.now) 0 0 []).2.2.2.2 =
      Except.ok k by rw [processBatches_buf_eq]; exact hdb]
  dsimp only
  simp only [List.getLastD_cons, getLastD_append_pair]
  show (updateSyncStatus _ _ _).tasksCreated = _
  simp only [updateSyncStatus]
  simp
  exact congrArg List.length (processBatches_buf_eq env (e :: es).length _ (e :: es))

theorem tasksCreated_counts_buffer_length_witness :
    rerunEnv.fetchResult = .ok [sampleEmail] ∧
    ([sampleEmail] : List Email) ≠ [] ∧
    dbAttempt rerunEnv (runBuffer rerunEnv) = .ok 0 ∧
    (runBuffer rerunEnv).length = 1 ∧
    (lastStatus rerunEnv (acceptedStatus none 0)).tasksCreated =
      (runBuffer rerunEnv).length :=
  ⟨rfl, by decide, rfl, by decide,
    tasksCreated_counts_buffer_length rerunEnv none 0 [sampleEmail] 0 rfl (by decide) rfl⟩

/-- C6: evaluation of the sync pipeline at the failing input.  After a
successful one-message run (`sampleEnv`) whose buffered record has the
extractor-reported title, an immediate re-run (`rerunEnv`) sees that
task in the store — same user, created within the trailing 7 days — yet
the deduplication lookup does not find it, because it searches for a
task whose *title contains the message id prefix* while the stored
title is the extractor's title: the message is re-processed and the
second run reports `tasksCreated = 1`, not the claimed 0. -/
theorem dedup_lookup_misses_rerun :
    (runBuffer sampleEnv).map (fun rec => rec.title) = ["Prepare for the interview"] ∧
    rerunEnv.existingTasks =
      [{ userId := "u1", title := "Prepare for the interview", createdAt := 999999 }] ∧
    rerunEnv.now - sevenDaysMs ≤ 999999 ∧
    dedupFound rerunEnv sampleEmail = false ∧
    (lastStatus rerunEnv (acceptedStatus none 0)).tasksCreated = 1 := by decide

/-- C3: when an unhandled exception escapes an accepted run (the mail
fetch rejects, or the final bulk persistence rejects), the final status
merge sets `isProcessing = false` and `error` to the exception message,
and leaves `progress` exactly at the value the previous written status
had reached (neither reset to 0 nor forced to 100). -/
theorem run_error_finalize_preserves_progress (env : RunEnv) (store : Option SyncStatus)
    (t0 : Int) (msg : String)
    (h : env.fetchResult = .error msg ∨
      ∃ emails, env.fetchResult = .ok emails ∧ emails ≠ [] ∧
        dbAttempt env (runBuffer env) = .error msg) :
    ∃ pre last, processEmailsAsync env (acceptedStatus store t0) = pre ++ [last] ∧
      pre ≠ [] ∧ last.isProcessing = false ∧ last.error = some msg ∧
      last.progress = (pre.getLastD (acceptedStatus store t0)).progress := by
  rcases h with hf | ⟨emails, hf, hne, hdb⟩
  · refine ⟨[updateSyncStatus (acceptedStatus store t0)
        { progress := some 10, currentStep := some "Fetching recent emails..." } env.now],
      updateSyncStatus
        (updateSyncStatus (acceptedStatus store t0)
          { progress := some 10, currentStep := some "Fetching recent emails..." } env.now)
        (failUpdate msg) env.now, ?_, by simp, ?_, ?_, ?_⟩
    · unfold processEmailsAsync
      rw [hf]
      rfl
    · simp [updateSyncStatus, failUpdate]
    · simp [updateSyncStatus, failUpdate]
    · simp [updateSyncStatus, failUpdate, List.getLastD_cons]
  · cases emails with
    | nil => exact absurd rfl hne
    | cons e es =>
    rw [runBuffer_eq_of_ok env (e :: es) hf] at hdb
    refine ⟨updateSyncStatus (acceptedStatus store t0)
        { progress := some 10, currentStep := some "Fetching recent emails..." } env.now ::
      updateSyncStatus
        (updateSyncStatus (acceptedStatus store t0)
          { progress := some 10, currentStep := some "Fetching recent emails..." } env.now)
        { progress := some 20, currentStep := some "Analyzing emails with AI...",
          totalEmails := some (e :: es).length } env.now ::
      (processBatches env (e :: es).length (chunks3 (e :: es))
        (updateSyncStatus
          (updateSyncStatus (acceptedStatus store t0)
            { progress := some 10, currentStep := some "Fetching recent emails..." } env.now)
          { progress := some 20, currentStep := some "Analyzing emails with AI...",
            totalEmails := some (e :: es).length } env.now) 0 0 []).1 ++
      [updateSyncStatus
        (processBatches env (e :: es).length (chunks3 (e :: es))
          (updateSyncStatus
            (updateSyncStatus (acceptedStatus store t0)
              { progress := some 10, currentStep := some "Fetching recent emails..." } env.now)
            { progress := some 20, currentStep := some "Analyzing emails with AI...",
              totalEmails := some (e :: es).length } env.now) 0 0 []).2.1
        { progress := some 85, currentStep := some "Saving tasks to database..." } env.now],
      updateSyncStatus
        (updateSyncStatus
          (processBatches env (e :: es).length (chunks3 (e :: es))
            (updateSyncStatus
              (updateSyncStatus (acceptedStatus store t0)
                { progress := some 10, currentStep := some "Fetching recent emails..." } env.now)
              { progress := some 20, currentStep := some "Analyzing emails with AI...",
                totalEmails := some (e :: es).length } env.now) 0 0 []).2.1
          { progress := some 85, currentStep := some "Saving tasks to database..." } env.now)
        (failUpdate msg) env.now, ?_, by simp, ?_, ?_, ?_⟩
    · unfold processEmailsAsync
      rw [hf]
      simp only [List.isEmpty_cons, Bool.false_eq_true, if_false]
      rw [show dbAttempt env (processBatches env (e :: es).length (chunks3 (e :: es))
          (updateSyncStatus
            (updateSyncStatus (acceptedStatus store t0)
              { progress := some 10, currentStep := some "Fetching recent emails..." } env.now)
            { progress := some 20, currentStep := some "Analyzing emails with AI...",
              totalEmails := some (e :: es).length } env.now) 0 0 []).2.2.2.2 =
          Except.error msg by rw [processBatches_buf_eq]; exact hdb]
      dsimp only
      simp
    · simp [updateSyncStatus, failUpdate]
    · simp [updateSyncStatus, failUpdate]
    · simp only [updateSyncStatus, failUpdate]
      simp only [List.getLastD_cons, List.getLastD_concat]
      simp

/-- C4: in a sync run, every status state the run writes — the accepted
initial status and each subsequent write, including every batch update —
satisfies `processedEmails + emailsFailed ≤ totalEmails`; the counter
fields are natural numbers by construction, hence non-negative
integers. -/
theorem counters_invariant_all_statuses (env : RunEnv) (store : Option SyncStatus)
    (t0 : Int) :
    ∀ s ∈ acceptedStatus store t0 :: processEmailsAsync env (acceptedStatus store t0),
      s.processedEmails + s.emailsFailed ≤ s.totalEmails := by
  intro s hs
  rcases List.mem_cons.mp hs with rfl | hs
  · simp [acceptedStatus, updateSyncStatus, initialUpdate]
  unfold processEmailsAsync at hs
  cases hfr : env.fetchResult with
  | error msg =>
    rw [hfr] at hs
    dsimp only at hs
    rcases List.mem_cons.mp hs with rfl | hs
    · simp [acceptedStatus, updateSyncStatus, initialUpdate]
    · have : s = updateSyncStatus (updateSyncStatus (acceptedStatus store t0)
          { progress := some 10, currentStep := some "Fetching recent emails..." } env.now)
          (failUpdate msg) env.now := by simpa using hs
      subst this
      simp [acceptedStatus, updateSyncStatus, initialUpdate, failUpdate]
  | ok emails =>
    rw [hfr] at hs
    dsimp only at hs
    by_cases hemp : emails.isEmpty = true
    · simp only [hemp, if_true] at hs
      rcases List.mem_cons.mp hs with rfl | hs
      · simp [acceptedStatus, updateSyncStatus, initialUpdate]
      · have : s = updateSyncStatus (updateSyncStatus (acceptedStatus store t0)
            { progress := some 10, currentStep := some "Fetching recent emails..." } env.now)
            { isProcessing := some false, progress := some 100,
              currentStep := some "No new emails found", totalEmails := some 0 } env.now := by
          simpa using hs
        subst this
        simp [acceptedStatus, updateSyncStatus, initialUpdate]
    · simp only [hemp, Bool.false_eq_true, if_false] at hs
      set s1 := updateSyncStatus (acceptedStatus store t0)
        { progress := some 10, currentStep := some "Fetching recent emails..." } env.now with hs1
      set s2 := updateSyncStatus s1
        { progress := some 20, currentStep := some "Analyzing emails with AI...",
          totalEmails := some emails.length } env.now with hs2
      have hs2p : s2.processedEmails = 0 := by
        simp [hs2, hs1, acceptedStatus, updateSyncStatus, initialUpdate]
      have hs2f : s2.emailsFailed = 0 := by
        simp [hs2, hs1, acceptedStatus, updateSyncStatus, initialUpdate]
      have hs2t : s2.totalEmails = emails.length := by
        simp [hs2, updateSyncStatus]
      have hmemcase : ∀ x ∈ (processBatches env emails.length (chunks3 emails) s2 0 0 []).1,
          x.processedEmails + x.emailsFailed ≤ x.totalEmails := by
        intro x hx
        have h1 := processBatches_mem_counters env emails.length (chunks3 emails) s2 0 0 [] x hx
        rw [chunks3_flatten] at h1
        have h2 := (processBatches_fields env emails.length (chunks3 emails) s2 0 0 [] x
          (List.mem_cons_of_mem _ hx)).1
        omega
      have hfinfields := processBatches_fields env emails.length (chunks3 emails) s2 0 0 []
        (processBatches env emails.length (chunks3 emails) s2 0 0 []).2.1
        (List.mem_cons_self _ _)
      have hfincnt := processBatches_fin_counters env emails.length (chunks3 emails) s2 0 0 []
        hs2p hs2f
      have hsum : (processBatches env emails.length (chunks3 emails) s2 0 0 []).2.2.1 +
          (processBatches env emails.length (chunks3 emails) s2 0 0 []).2.2.2.1 =
          emails.length := by
        rw [processBatches_p_eq, processBatches_f_eq, emailOkCount_add_errCount]
      have hfp := hfincnt.1
      have hff := hfincnt.2
      have hft := hfinfields.1
      have hs1case : s1.processedEmails + s1.emailsFailed ≤ s1.totalEmails := by
        rw [hs1]
        simp [acceptedStatus, updateSyncStatus, initialUpdate]
      have hs2case : s2.processedEmails + s2.emailsFailed ≤ s2.totalEmails := by
        rw [hs2p, hs2f, hs2t]
        simp
      have hs3case : ∀ u : SyncStatusUpdate, u.processedEmails = none →
          u.emailsFailed = none → u.totalEmails = none →
          (updateSyncStatus (processBatches env emails.length (chunks3 emails)
              s2 0 0 []).2.1 u env.now).processedEmails +
            (updateSyncStatus (processBatches env emails.length (chunks3 emails)
              s2 0 0 []).2.1 u env.now).emailsFailed ≤
            (updateSyncStatus (processBatches env emails.length (chunks3 emails)
              s2 0 0 []).2.1 u env.now).totalEmails := by
        intro u hu1 hu2 hu3
        simp only [updateSyncStatus, hu1, hu2, hu3, Option.getD_none]
        omega
      cases hdbc : dbAttempt env
          (processBatches env emails.length (chunks3 emails) s2 0 0 []).2.2.2.2 with
      | error msg =>
        rw [hdbc] at hs
        dsimp only at hs
        simp only [List.mem_cons, List.mem_append, List.mem_singleton] at hs
        rcases hs with (rfl | rfl | hs) | (rfl | rfl | h0)
        · exact hs1case
        · exact hs2case
        · exact hmemcase s hs
        · exact hs3case _ rfl rfl rfl
        · have hbase := hs3case (SyncStatusUpdate.mk none (some 85)
            (some "Saving tasks to database...") none none none none none) rfl rfl rfl
          simp only [updateSyncStatus, failUpdate, Option.getD_none] at hbase ⊢
          exact hbase
        · cases h0
      | ok k =>
        rw [hdbc] at hs
        dsimp only at hs
        simp only [List.mem_cons, List.mem_append, List.mem_singleton] at hs
        rcases hs with (rfl | rfl | hs) | (rfl | rfl | h0)
        · exact hs1case
        · exact hs2case
        · exact hmemcase s hs
        · exact hs3case _ rfl rfl rfl
        · simp only [updateSyncStatus, Option.getD_none, Option.getD_some]
          omega
        · cases h0

theorem counters_invariant_all_statuses_witness :
    acceptedStatus none 0 ∈
      acceptedStatus none 0 :: processEmailsAsync sampleEnv (acceptedStatus none 0) ∧
    (acceptedStatus none 0).processedEmails + (acceptedStatus none 0).emailsFailed ≤
      (acceptedStatus none 0).totalEmails :=
  ⟨List.mem_cons_self _ _,
    counters_invariant_all_statuses sampleEnv none 0 _ (List.mem_cons_self _ _)⟩

theorem batchProgress_zero (total : Nat) : batchProgress 0 total = 20 := by
  unfold batchProgress
  norm_num

/-- C5: within one sync run, the sequence formed by the accepted initial
status and every status the run writes has monotonically non-decreasing
`progress`, and every written `progress` value lies in [0,100]; this
holds on the success path, the zero-email short-circuit path and both
error paths. -/
theorem progress_monotone_and_bounded (env : RunEnv) (store : Option SyncStatus)
    (t0 : Int) :
    List.Chain' (fun a b => a.progress ≤ b.progress)
      (acceptedStatus store t0 :: processEmailsAsync env (acceptedStatus store t0)) ∧
    ∀ s ∈ acceptedStatus store t0 :: processEmailsAsync env (acceptedStatus store t0),
      0 ≤ s.progress ∧ s.progress ≤ 100 := by
  have hs0p : (acceptedStatus store t0).progress = 0 := by
    simp [acceptedStatus, updateSyncStatus, initialUpdate]
  unfold processEmailsAsync
  cases hfr : env.fetchResult with
  | error msg =>
    dsimp only
    constructor
    · refine List.chain'_cons.mpr ⟨?_, List.chain'_cons.mpr ⟨?_, List.chain'_singleton _⟩⟩
      · rw [hs0p]
        simp [updateSyncStatus]
      · simp [updateSyncStatus, failUpdate]
    · intro s hs
      rcases List.mem_cons.mp hs with rfl | hs
      · rw [hs0p]; norm_num
      · rcases List.mem_cons.mp hs with rfl | hs
        · simp [updateSyncStatus]; norm_num
        · have : s = updateSyncStatus (updateSyncStatus (acceptedStatus store t0)
              { progress := some 10, currentStep := some "Fetching recent emails..." }
              env.now) (failUpdate msg) env.now := by simpa using hs
          subst this
          simp [updateSyncStatus, failUpdate]
          norm_num
  | ok emails =>
    dsimp only
    by_cases hemp : emails.isEmpty = true
    · simp only [hemp, if_true]
      constructor
      · refine List.chain'_cons.mpr ⟨?_, List.chain'_cons.mpr ⟨?_, List.chain'_singleton _⟩⟩
        · rw [hs0p]
          simp [updateSyncStatus]
        · simp [updateSyncStatus]
          norm_num
      · intro s hs
        rcases List.mem_cons.mp hs with rfl | hs
        · rw [hs0p]; norm_num
        · rcases List.mem_cons.mp hs with rfl | hs
          · simp [updateSyncStatus]; norm_num
          · have : s = updateSyncStatus (updateSyncStatus (acceptedStatus store t0)
                { progress := some 10, currentStep := some "Fetching recent emails..." }
                env.now)
                { isProcessing := some false, progress := some 100,
                  currentStep := some "No new emails found", totalEmails := some 0 }
                env.now := by simpa using hs
            subst this
            simp [updateSyncStatus]
    · simp only [hemp, Bool.false_eq_true, if_false]
      set s1 := updateSyncStatus (acceptedStatus store t0)
        { progress := some 10, currentStep := some "Fetching recent emails..." } env.now
        with hs1
      set s2 := updateSyncStatus s1
        { progress := some 20, currentStep := some "Analyzing emails with AI...",
          totalEmails := some emails.length } env.now with hs2
      have h1p : s1.progress = 10 := by rw [hs1]; simp [updateSyncStatus]
      have h2p : s2.progress = 20 := by rw [hs2]; simp [updateSyncStatus]
      have hcur : s2.progress ≤ batchProgress (0 + 0) emails.length := by
        rw [h2p]
        have : batchProgress (0 + 0) emails.length = 20 := by
          simpa using batchProgress_zero emails.length
        rw [this]
      obtain ⟨hchain, hmem, hfin80⟩ :=
        processBatches_chain env emails.length (chunks3 emails) s2 0 0 [] hcur
      have hfineq := processBatches_fin env emails.length (chunks3 emails) s2 0 0 []
      have hlast : ((s2 :: (processBatches env emails.length (chunks3 emails)
          s2 0 0 []).1).getLast?) = some ((processBatches env emails.length (chunks3 emails)
          s2 0 0 []).2.1) := by
        rw [getLast?_cons_getLastD, hfineq]
      have hs3p : ∀ fin : SyncStatus,
          (updateSyncStatus fin (SyncStatusUpdate.mk none (some 85)
            (some "Saving tasks to database...") none none none none none)
            env.now).progress = 85 := by
        intro fin
        simp [updateSyncStatus]
      cases hdbc : dbAttempt env
          (processBatches env emails.length (chunks3 emails) s2 0 0 []).2.2.2.2 with
      | error msg =>
        dsimp only
        constructor
        · refine List.chain'_cons.mpr ⟨?_, List.chain'_cons.mpr ⟨?_, ?_⟩⟩
          · rw [hs0p, h1p]; norm_num
          · rw [h1p, h2p]; norm_num
          · refine (List.chain'_append.mpr ⟨hchain, ?_, ?_⟩ :
              List.Chain' _ ((s2 :: (processBatches env emails.length (chunks3 emails)
                s2 0 0 []).1) ++ _))
            · refine List.chain'_cons.mpr ⟨?_, List.chain'_singleton _⟩
              simp [updateSyncStatus, failUpdate]
            · intro x hx y hy
              rw [hlast] at hx
              cases hx
              simp only [List.head?_cons, Option.mem_def, Option.some.injEq] at hy
              subst hy
              rw [hs3p]
              exact hfin80.trans (by norm_num)
        · intro s hs
          simp only [List.mem_cons, List.mem_append, List.mem_singleton] at hs
          rcases hs with rfl | (rfl | rfl | hs) | (rfl | rfl | h0)
          · rw [hs0p]; norm_num
          · rw [h1p]; norm_num
          · rw [h2p]; norm_num
          · obtain ⟨hlo, hhi⟩ := hmem s hs
            constructor
            · exact le_trans (by norm_num) hlo
            · exact hhi.trans (by norm_num)
          · rw [hs3p]; norm_num
          · show 0 ≤ (updateSyncStatus _ (failUpdate msg) env.now).progress ∧ _
            have : (updateSyncStatus (updateSyncStatus (processBatches env emails.length
                (chunks3 emails) s2 0 0 []).2.1 (SyncStatusUpdate.mk none (some 85)
                (some "Saving tasks to database...") none none none none none) env.now)
                (failUpdate msg) env.now).progress = 85 := by
              simp [updateSyncStatus, failUpdate]
            rw [this]
            norm_num
          · cases h0
      | ok k =>
        dsimp only
        constructor
        · refine List.chain'_cons.mpr ⟨?_, List.chain'_cons.mpr ⟨?_, ?_⟩⟩
          · rw [hs0p, h1p]; norm_num
          · rw [h1p, h2p]; norm_num
          · refine (List.chain'_append.mpr ⟨hchain, ?_, ?_⟩ :
              List.Chain' _ ((s2 :: (processBatches env emails.length (chunks3 emails)
                s2 0 0 []).1) ++ _))
            · refine List.chain'_cons.mpr ⟨?_, List.chain'_singleton _⟩
              simp [updateSyncStatus]
              norm_num
            · intro x hx y hy
              rw [hlast] at hx
              cases hx
              simp only [List.head?_cons, Option.mem_def, Option.some.injEq] at hy
              subst hy
              rw [hs3p]
              exact hfin80.trans (by norm_num)
        · intro s hs
          simp only [List.mem_cons, List.mem_append, List.mem_singleton] at hs
          rcases hs with rfl | (rfl | rfl | hs) | (rfl | rfl | h0)
          · rw [hs0p]; norm_num
          · rw [h1p]; norm_num
          · rw [h2p]; norm_num
          · obtain ⟨hlo, hhi⟩ := hmem s hs
            constructor
            · exact le_trans (by norm_num) hlo
            · exact hhi.trans (by norm_num)
          · rw [hs3p]; norm_num
          · have : (updateSyncStatus (updateSyncStatus (processBatches env emails.length
                (chunks3 emails) s2 0 0 []).2.1 (SyncStatusUpdate.mk none (some 85)
                (some "Saving tasks to database...") none none none none none) env.now)
                (SyncStatusUpdate.mk (some false) (some 100)
                  (some "Sync completed successfully!") none
                  (some (processBatches env emails.length (chunks3 emails)
                    s2 0 0 []).2.2.1)
                  (some (processBatches env emails.length (chunks3 emails)
                    s2 0 0 []).2.2.2.2.length)
                  (some (processBatches env emails.length (chunks3 emails)
                    s2 0 0 []).2.2.2.1) none) env.now).progress = 100 := by
              simp [updateSyncStatus]
            rw [this]
            norm_num
          · cases h0

theorem progress_monotone_and_bounded_witness :
    acceptedStatus none 0 ∈
      acceptedStatus none 0 :: processEmailsAsync sampleEnv (acceptedStatus none 0) ∧
    0 ≤ (acceptedStatus none 0).progress ∧ (acceptedStatus none 0).progress ≤ 100 :=
  ⟨List.mem_cons_self _ _,
    (progress_monotone_and_bounded sampleEnv none 0).2 _ (List.mem_cons_self _ _)⟩

theorem run_error_finalize_preserves_progress_witness :
    fetchFailEnv.fetchResult = .error "Gmail unreachable" ∧
    (∃ pre last,
      processEmailsAsync fetchFailEnv (acceptedStatus none 0) = pre ++ [last] ∧
      pre ≠ [] ∧ last.isProcessing = false ∧ last.error = some "Gmail unreachable" ∧
      last.progress = (pre.getLastD (acceptedStatus none 0)).progress) :=
  ⟨rfl, run_error_finalize_preserves_progress fetchFailEnv none 0 "Gmail unreachable"
    (Or.inl rfl)⟩

end EmailAssistant
